import Mathlib

/-!
A verification development for the pgbouncer-performance-test analysis
scripts (`scripts/analyze_results.py` and `scripts/analyze_results_improved.py`).

The Python sources are shallowly embedded:
* Python floats are modelled as exact rationals (`ℚ`); the scripts only ever
  parse decimal literals and do elementary arithmetic on them.
* `re.search`/`re.findall` uses in the scripts are all of the restricted shape
  "literal prefix, one `+`-repeated character class capture, literal suffix";
  they are embedded as direct scans over `List Char`.
* Code that can raise (`float(...)` on a malformed capture, division by zero)
  is embedded in `Except String`; the error payload names the Python
  exception class.
* File-system access and console output are embedded as an explicit trace of
  `Effect`s over a pure snapshot `FS` of the result directory.
-/

deriving instance DecidableEq for Except

/-- A snapshot of the file system: maps a path to the file's text content,
or `none` when the file does not exist (`os.path.exists` fails). -/
def FS : Type := String → Option String

/-- Characters admitted by the regex character class `[0-9.]`. -/
def isDigitDot (c : Char) : Bool := c.isDigit || c == '.'

/-- `startsWith p s`: the pattern `p` is a literal prefix of `s`. -/
def startsWith : List Char → List Char → Bool
  | [], _ => true
  | _ :: _, [] => false
  | p :: ps, c :: cs => p == c && startsWith ps cs

/-- One attempt of the restricted regex `pre([cls]+)post` anchored at the
start of `s`; returns the greedy capture on success.  In every pattern used
by the scripts the first character of `post` is not in `cls`, so the greedy
match without backtracking is exact. -/
def tryCapture (pre : List Char) (cls : Char → Bool) (post : List Char)
    (s : List Char) : Option (List Char) :=
  if startsWith pre s then
    let rest := s.drop pre.length
    let cap := rest.takeWhile cls
    if cap.isEmpty then none
    else if startsWith post (rest.drop cap.length) then some cap else none
  else none

/-- `re.search` for the restricted regex `pre([cls]+)post`: leftmost match,
returning the capture group. -/
def searchCap (pre : List Char) (cls : Char → Bool) (post : List Char) :
    List Char → Option (List Char)
  | [] => tryCapture pre cls post []
  | c :: cs =>
    match tryCapture pre cls post (c :: cs) with
    | some cap => some cap
    | none => searchCap pre cls post cs

/-- Fuel-driven core of `re.findall` for a two-branch alternation of
literals: counts non-overlapping leftmost matches, trying branch `p1` before
`p2` at each position.  The fuel starts at the length of the text and
dominates the number of scan steps, so it never runs out. -/
def countAltAux (p1 p2 : List Char) : ℕ → List Char → ℕ
  | 0, _ => 0
  | _, [] => 0
  | fuel + 1, c :: cs =>
    if startsWith p1 (c :: cs) then
      1 + countAltAux p1 p2 fuel (cs.drop (p1.length - 1))
    else if startsWith p2 (c :: cs) then
      1 + countAltAux p1 p2 fuel (cs.drop (p2.length - 1))
    else countAltAux p1 p2 fuel cs

/-- `len(re.findall(r'p1|p2', s))` for literal branches `p1`, `p2`. -/
def countAlt2 (p1 p2 s : List Char) : ℕ := countAltAux p1 p2 s.length s

/-- `len(re.findall(p, s))` for a single literal pattern `p`. -/
def countSub (p s : List Char) : ℕ := countAlt2 p p s

/-- The Python substring test `p in s`. -/
def containsSub : List Char → List Char → Bool
  | p, [] => startsWith p []
  | p, c :: cs => startsWith p (c :: cs) || containsSub p cs

/-- Lower-casing a text, as `str.lower()` does on the ASCII log text; used to
model `re.IGNORECASE` matching against lower-case patterns. -/
def lowerL (l : List Char) : List Char := l.map Char.toLower

/-- Value of a string of decimal digits (the usual left fold). -/
def digitsToNat (l : List Char) : ℕ :=
  l.foldl (fun a c => 10 * a + (c.toNat - 48)) 0

/-- Python's `float()` applied to a capture of the class `[0-9.]`: it
succeeds exactly when the capture has at most one dot and at least one
digit (e.g. `"1."`, `".5"`, `"2.75"`), and raises `ValueError` on captures
such as `"."` or `"1.2.3"`. -/
def pyfloatL (cap : List Char) : Except String ℚ :=
  if cap.count '.' ≤ 1 ∧ cap.any Char.isDigit then
    let ip := cap.takeWhile (fun c => c ≠ '.')
    let fp := (cap.dropWhile (fun c => c ≠ '.')).drop 1
    Except.ok ((digitsToNat ip : ℚ) + (digitsToNat fp : ℚ) / 10 ^ fp.length)
  else Except.error "ValueError"

/-- `float(m.group(1)) if m else 0`: the guarded float extraction idiom used
for every float field of the extractors. -/
def matchFloat : Option (List Char) → Except String ℚ
  | none => Except.ok 0
  | some cap => pyfloatL cap

/-- `int(m.group(1)) if m else 0`: `int()` never fails on a `[0-9]+`
capture, so no exception is possible here. -/
def matchInt : Option (List Char) → ℕ
  | none => 0
  | some cap => digitsToNat cap

/-- Python division, which raises `ZeroDivisionError` on a zero
denominator (for ints and floats alike). -/
def pydiv (a b : ℚ) : Except String ℚ :=
  if b = 0 then Except.error "ZeroDivisionError" else Except.ok (a / b)

-- sanity checks of the scanning machinery
example : searchCap "tps = ".data isDigitDot [] "x tps = 12.5 y".data
    = some ['1', '2', '.', '5'] := by decide
example : searchCap "tps = ".data isDigitDot [] "tps = x tps = 7".data
    = some ['7'] := by decide
example : pyfloatL ['1', '2', '.', '5'] = Except.ok (25 / 2) := by
  with_unfolding_all rfl
example : pyfloatL ['.'] = Except.error "ValueError" := by with_unfolding_all rfl
example : countAlt2 "timeout".data "timed out".data "timeout timed out".data = 2 := by
  decide
example : containsSub "failed".data "it failed!".data = true := by decide

/-! ## Metric extraction (`parse_pgbench_output*`, lines 16-43 of the scripts) -/

/-- The scalar fields extracted from one raw log
(`analyze_results_improved.py`, lines 16-43). -/
structure MetricRecord where
  tps : ℚ
  latency : ℚ
  latency_stddev : ℚ
  scaling_factor : ℕ
  clients : ℕ
  transactions_per_client : ℕ
  transactions_processed : ℕ
deriving DecidableEq

/-- The all-zero-default record produced on marker-free input. -/
def zeroMetricRecord : MetricRecord := ⟨0, 0, 0, 0, 0, 0, 0⟩

/-- `re.search(r'tps = ([0-9.]+)', content)`, capture group 1. -/
def searchTps (content : String) : Option (List Char) :=
  searchCap "tps = ".data isDigitDot [] content.data

/-- `re.search(r'latency average = ([0-9.]+) ms', content)`, capture group 1. -/
def searchLatency (content : String) : Option (List Char) :=
  searchCap "latency average = ".data isDigitDot " ms".data content.data

/-- `re.search(r'latency stddev = ([0-9.]+) ms', content)`, capture group 1. -/
def searchLatencyStd (content : String) : Option (List Char) :=
  searchCap "latency stddev = ".data isDigitDot " ms".data content.data

/-- `re.search(r'scaling factor: ([0-9]+)', content)`, capture group 1. -/
def searchScaling (content : String) : Option (List Char) :=
  searchCap "scaling factor: ".data Char.isDigit [] content.data

/-- `re.search(r'number of clients: ([0-9]+)', content)`, capture group 1. -/
def searchClients (content : String) : Option (List Char) :=
  searchCap "number of clients: ".data Char.isDigit [] content.data

/-- `re.search(r'number of transactions per client: ([0-9]+)', content)`. -/
def searchTransPerClient (content : String) : Option (List Char) :=
  searchCap "number of transactions per client: ".data Char.isDigit [] content.data

/-- `re.search(r'number of transactions actually processed: ([0-9]+)', content)`. -/
def searchTransProcessed (content : String) : Option (List Char) :=
  searchCap "number of transactions actually processed: ".data Char.isDigit []
    content.data

/-- The metric-extraction stage of `parse_pgbench_output_detailed`
(lines 16-43), field by field in source order.  A float field whose marker is
absent defaults to `0`; a matched float capture goes through `float()`,
which can raise `ValueError`.  Integer captures cannot fail. -/
def extractMetrics (content : String) : Except String MetricRecord := do
  let tps ← matchFloat (searchTps content)
  let latency ← matchFloat (searchLatency content)
  let latency_stddev ← matchFloat (searchLatencyStd content)
  let scaling_factor := matchInt (searchScaling content)
  let clients := matchInt (searchClients content)
  let transactions_per_client := matchInt (searchTransPerClient content)
  let transactions_processed := matchInt (searchTransProcessed content)
  pure ⟨tps, latency, latency_stddev, scaling_factor, clients,
        transactions_per_client, transactions_processed⟩

/-! ## Error classification (`analyze_results_improved.py`, lines 50-58) -/

/-- Per-category occurrence counts (the `error_types` dict). -/
structure ErrorCounts where
  connection_refused : ℕ
  too_many_clients : ℕ
  timeout_errors : ℕ
  authentication_failed : ℕ
  fatal_errors : ℕ
  generic_errors : ℕ
deriving DecidableEq

/-- Zero occurrence counts for every category. -/
def zeroErrorCounts : ErrorCounts := ⟨0, 0, 0, 0, 0, 0⟩

/-- The `error_types` computation: four case-insensitive two-branch
alternations (modelled by matching the lower-cased text against the
lower-case patterns) and two case-sensitive literal counts. -/
def classifyErrors (content : String) : ErrorCounts :=
  let low := lowerL content.data
  { connection_refused := countAlt2 "connection refused".data "could not connect".data low
    too_many_clients := countAlt2 "too many clients".data "connection limit".data low
    timeout_errors := countAlt2 "timeout".data "timed out".data low
    authentication_failed :=
      countAlt2 "authentication failed".data "password authentication".data low
    fatal_errors := countSub "FATAL:".data content.data
    generic_errors := countSub "ERROR:".data content.data }

/-! ## Reliability evaluation (`analyze_results_improved.py`, lines 39-109) -/

/-- Lines 74-81: the qualitative consistency rating from the coefficient of
variation of latency. -/
def performanceConsistency (latency_stddev latency : ℚ) : String :=
  if latency_stddev > 0 ∧ latency > 0 then
    let cv := latency_stddev / latency * 100
    if cv > 50 then "Poor" else if cv > 25 then "Fair" else "Good"
  else "Good"

/-- The dict returned by `parse_pgbench_output_detailed` (lines 83-109),
minus the `raw_content` echo of the input text. -/
structure DetailedResult where
  tps : ℚ
  latency : ℚ
  latency_stddev : ℚ
  performance_consistency : String
  total_transactions_attempted : ℕ
  transactions_processed : ℕ
  success_rate : ℚ
  error_rate : ℚ
  connection_rejections : ℕ
  timeout_rate : ℚ
  error_types : ErrorCounts
  has_critical_errors : Bool
  has_timeouts : Bool
  clients : ℕ
  transactions_per_client : ℕ
deriving DecidableEq

/-- The derivation of every reliability indicator from the extracted metrics
and error counts (lines 39-109).  `timeoutWord` is the extra
`'timeout' in content.lower()` test folded into `has_timeouts`. -/
def evaluateDetailed (m : MetricRecord) (e : ErrorCounts) (timeoutWord : Bool) :
    DetailedResult :=
  let total := m.clients * m.transactions_per_client
  let success_rate : ℚ :=
    if total > 0 then ((m.transactions_processed : ℚ) / (total : ℚ)) * 100 else 0
  { tps := m.tps
    latency := m.latency
    latency_stddev := m.latency_stddev
    performance_consistency := performanceConsistency m.latency_stddev m.latency
    total_transactions_attempted := total
    transactions_processed := m.transactions_processed
    success_rate := success_rate
    error_rate := 100 - success_rate
    connection_rejections := e.connection_refused + e.too_many_clients
    timeout_rate := ((e.timeout_errors : ℚ) / ((max 1 total : ℕ) : ℚ)) * 100
    error_types := e
    has_critical_errors :=
      decide (0 < e.connection_refused) || decide (0 < e.too_many_clients) ||
      decide (0 < e.fatal_errors) || decide (success_rate < 95)
    has_timeouts := decide (0 < e.timeout_errors) || timeoutWord
    clients := m.clients
    transactions_per_client := m.transactions_per_client }

/-- `parse_pgbench_output_detailed` applied to the text of an existing file. -/
def parse_pgbench_output_detailed (content : String) : Except String DetailedResult :=
  (extractMetrics content).map fun m =>
    evaluateDetailed m (classifyErrors content)
      (containsSub "timeout".data (lowerL content.data))

/-! ## The simple parser (`analyze_results.py`, lines 8-33) -/

/-- The dict returned by `parse_pgbench_output`, minus the `content` echo. -/
structure SimpleResult where
  tps : ℚ
  latency : ℚ
  has_errors : Bool
deriving DecidableEq

/-- Line 26: `any(keyword in content for keyword in
['FATAL', 'ERROR', 'failed', 'connection refused'])` (case-sensitive). -/
def hasErrorKeywords (content : String) : Bool :=
  containsSub "FATAL".data content.data || containsSub "ERROR".data content.data ||
  containsSub "failed".data content.data ||
  containsSub "connection refused".data content.data

/-- `parse_pgbench_output` applied to the text of an existing file. -/
def parse_pgbench_output (content : String) : Except String SimpleResult := do
  let tps ← matchFloat (searchTps content)
  let latency ← matchFloat (searchLatency content)
  pure ⟨tps, latency, hasErrorKeywords content⟩

/-- Reading and parsing one log file with the simple parser: a missing file
gives `None` (line 10-11), an existing one is read and parsed. -/
def parseOpt (fs : FS) (file : String) : Except String (Option SimpleResult) :=
  match fs file with
  | none => Except.ok none
  | some content => (parse_pgbench_output content).map some

/-- Reading and parsing one log file with the detailed parser. -/
def parseOptD (fs : FS) (file : String) : Except String (Option DetailedResult) :=
  match fs file with
  | none => Except.ok none
  | some content => (parse_pgbench_output_detailed content).map some

-- sanity checks of the parsers
example : extractMetrics "tps = ." = Except.error "ValueError" := by
  with_unfolding_all rfl
example : parse_pgbench_output "tps = 5\nlatency average = 2.5 ms"
    = Except.ok ⟨5, 5 / 2, false⟩ := by with_unfolding_all rfl
example : (classifyErrors "FATAL: Timeout; timed out").timeout_errors = 2 := by
  with_unfolding_all rfl
example : (classifyErrors "FATAL: Timeout; timed out").fatal_errors = 1 := by
  with_unfolding_all rfl
example : extractMetrics "" = Except.ok zeroMetricRecord := by with_unfolding_all rfl

/-! ## Decimal rendering (Python `f"{x:.Nf}"` and `str(int)`) -/

/-- The decimal digit character for `n % 10`-style values below ten. -/
def digitChar (n : ℕ) : Char := Char.ofNat (48 + n)

/-- Fuel-driven digit accumulator: prepends the decimal digits of `n` to
`acc`.  The fuel `n + 1` of `natToDigitsL` always suffices, since the
quotient chain `n, n / 10, ...` reaches a value below ten within `n` steps. -/
def natDigs : ℕ → ℕ → List Char → List Char
  | 0, _, acc => acc
  | fuel + 1, n, acc =>
    if n < 10 then digitChar n :: acc
    else natDigs fuel (n / 10) (digitChar (n % 10) :: acc)

/-- The decimal digit string of a natural number, as `str(n)` renders it. -/
def natToDigitsL (n : ℕ) : List Char := natDigs (n + 1) n []

/-- `str(n)` for a natural number. -/
def natStr (n : ℕ) : String := String.mk (natToDigitsL n)

/-- Left-pads a digit string with zeros to width `k` (the fractional part of
a fixed-point rendering). -/
def padZeros (k : ℕ) (l : List Char) : List Char :=
  List.replicate (k - l.length) '0' ++ l

/-- Rounding to the nearest integer as fixed-point formatting does.  Exact
ties are rounded up here, while IEEE-754 formatting rounds the (already
binary-approximated) value half-to-even; no claim in this development
depends on the tie-breaking direction. -/
def roundQ (q : ℚ) : ℤ := ⌊q + 1 / 2⌋

/-- Python's fixed-point format `f"{q:.precf}"` on the idealised rational
value: round `q` at `prec` decimal places and print with exactly `prec`
digits after the point (no point at all for `prec = 0`). -/
def fmtFixedL (prec : ℕ) (q : ℚ) : List Char :=
  let m := roundQ (q * 10 ^ prec)
  let a := m.natAbs
  let digs :=
    if prec = 0 then natToDigitsL a
    else natToDigitsL (a / 10 ^ prec) ++
      '.' :: padZeros prec (natToDigitsL (a % 10 ^ prec))
  if m < 0 then '-' :: digs else digs

/-- `f"{q:.precf}"` as a string. -/
def fmtFixed (prec : ℕ) (q : ℚ) : String := String.mk (fmtFixedL prec q)

/-- `f"{q:+.precf}"`: the sign-forcing variant (a `+` prefix on non-negative
rendered values). -/
def fmtPlus (prec : ℕ) (q : ℚ) : String :=
  (if roundQ (q * 10 ^ prec) < 0 then "" else "+") ++ fmtFixed prec q

-- sanity checks of the formatting
example : fmtFixed 2 (5 / 2) = "2.50" := by with_unfolding_all rfl
example : fmtFixed 2 (1234567 / 1000) = "1234.57" := by with_unfolding_all rfl
example : fmtFixed 1 (106 / 100) = "1.1" := by with_unfolding_all rfl
example : fmtFixed 0 (3999 / 10) = "400" := by with_unfolding_all rfl
example : fmtFixed 2 (1 / 100) = "0.01" := by with_unfolding_all rfl
example : fmtPlus 1 (-300 : ℚ) = "-300.0" := by with_unfolding_all rfl
example : fmtPlus 1 (75 : ℚ) = "+75.0" := by with_unfolding_all rfl
example : natStr 1050 = "1050" := by with_unfolding_all rfl

/-! ## Effect traces

Each engine run is embedded as a pure function of a file-system snapshot
that either raises (`Except.error`, the Python exception escaping `main`) or
returns the ordered trace of its externally visible effects: log-file reads,
the report-file write (one event, recorded with the full content at the
closing of the `with open(...)` block), and console prints. -/

/-- One externally visible effect of an engine run. -/
inductive Effect where
  | readFile (name : String)
  | writeFile (name content : String)
  | printOut (line : String)
deriving DecidableEq

/-- Everything a trace prints to standard output, in order (Python's
`print` appends a newline to each line). -/
def stdoutOf : List Effect → String
  | [] => ""
  | Effect.printOut s :: tr => s ++ "\n" ++ stdoutOf tr
  | Effect.readFile _ :: tr => stdoutOf tr
  | Effect.writeFile _ _ :: tr => stdoutOf tr

/-- The file names read by a trace, in order and with multiplicity. -/
def readNames : List Effect → List String
  | [] => []
  | Effect.readFile n :: tr => n :: readNames tr
  | Effect.writeFile _ _ :: tr => readNames tr
  | Effect.printOut _ :: tr => readNames tr

/-- How many times a trace reads the given file. -/
def readCount (file : String) (tr : List Effect) : ℕ := (readNames tr).count file

/-- Every file content written by a trace is echoed, verbatim and in full,
somewhere on the standard output produced after that write. -/
def reportEchoedB : List Effect → Bool
  | [] => true
  | Effect.writeFile _ c :: tr =>
    containsSub c.data (stdoutOf tr).data && reportEchoedB tr
  | Effect.readFile _ :: tr => reportEchoedB tr
  | Effect.printOut _ :: tr => reportEchoedB tr

/-- The read events for the files of `names` that exist in the snapshot, in
order (a `parse_pgbench_output*` call reads its file exactly when
`os.path.exists` succeeds). -/
def readsFor (fs : FS) (names : List String) : List Effect :=
  (names.filter fun n => (fs n).isSome).map Effect.readFile

/-- `f"{results_dir}/{mid}_{timestamp}.log"` for a strategy_scenario pair. -/
def logFile (dir mid ts : String) : String := dir ++ "/" ++ mid ++ "_" ++ ts ++ ".log"

/-- `f"{results_dir}/summary_{timestamp}.txt"`. -/
def summaryFile (dir ts : String) : String := dir ++ "/summary_" ++ ts ++ ".txt"

/-- `f"{results_dir}/detailed_analysis_{timestamp}.txt"`. -/
def detailFile (dir ts : String) : String := dir ++ "/detailed_analysis_" ++ ts ++ ".txt"

/-- The six strategy_scenario file stems, in the iteration order of the
`tests` dict of both scripts. -/
def sixLogMids : List String :=
  ["direct_overhead", "pgbouncer_overhead", "direct_concurrent",
   "pgbouncer_concurrent", "direct_extreme", "pgbouncer_extreme"]

/-- The six expected log files, in processing order. -/
def sixLogFiles (dir ts : String) : List String :=
  sixLogMids.map fun m => logFile dir m ts

/-- The log files the simple engine tries to read, in program order: the six
loop reads (`analyze_results.py` lines 70-71) followed by the four
key-findings re-reads of the overhead and extreme logs (lines 101-102 and
114-115). -/
def simpleReadList (dir ts : String) : List String :=
  sixLogFiles dir ts ++
  [logFile dir "direct_overhead" ts, logFile dir "pgbouncer_overhead" ts,
   logFile dir "direct_extreme" ts, logFile dir "pgbouncer_extreme" ts]

/-! ## The simple report (`analyze_results.py`, lines 59-137) -/

/-- `c * n` as the Python string-repetition `c * n` of a one-char string. -/
def repChar (c : Char) (n : ℕ) : String := String.mk (List.replicate n c)

/-- Lines 62-64 of `analyze_results.py`. -/
def simpleHeader (now : String) : String :=
  "PgBouncer Performance Test Results\n" ++ repChar '=' 50 ++ "\n" ++
  "Generated: " ++ now ++ "\n\n"

/-- Line 78. -/
def directFailLine : String := "Direct Connection: FAILED or ERRORS\n"

/-- Line 95. -/
def pgbFailLine : String := "PgBouncer Connection: FAILED or ERRORS\n"

/-- Lines 74-76: the direct-connection numeric summary lines (`:.2f`). -/
def simpleDirectBlock (r : SimpleResult) : String :=
  "Direct Connection:\n" ++ "  TPS: " ++ fmtFixed 2 r.tps ++ "\n" ++
  "  Latency: " ++ fmtFixed 2 r.latency ++ " ms\n"

/-- Lines 86-93: the improvement figures, each guarded by a strict
positivity test on its denominator before the division is evaluated. -/
def simpleImprovementLines (d p : SimpleResult) : String :=
  (if d.tps > 0 then
    "  TPS Improvement: " ++ fmtPlus 1 ((p.tps / d.tps - 1) * 100) ++ "%\n"
   else "") ++
  (if d.latency > 0 then
    "  Latency Improvement: " ++ fmtPlus 1 ((1 - p.latency / d.latency) * 100) ++ "%\n"
   else "")

/-- Lines 66-95: one scenario section of the summary. -/
def simpleTestSection (name : String) (d p : Option SimpleResult) : String :=
  "\n" ++ name.toUpper ++ " TEST RESULTS\n" ++ repChar '-' 30 ++ "\n" ++
  (match d with
   | some r => if r.has_errors then directFailLine else simpleDirectBlock r
   | none => directFailLine) ++
  (match p with
   | some r =>
     if r.has_errors then pgbFailLine
     else
       "PgBouncer Connection:\n" ++ "  TPS: " ++ fmtFixed 2 r.tps ++ "\n" ++
       "  Latency: " ++ fmtFixed 2 r.latency ++ " ms\n" ++
       (match d with
        | some dr => if dr.has_errors then "" else simpleImprovementLines dr r
        | none => "")
   | none => pgbFailLine)

/-- Lines 104-111: the key-findings overhead ratios.  Unlike the per-section
improvement figures, the three divisions here (by the direct throughput, by
the pooled latency, and by the resulting latency ratio) are evaluated
without any zero guard, so each can raise `ZeroDivisionError`. -/
def overheadFindings (od op : Option SimpleResult) : Except String String :=
  match od, op with
  | some d, some p =>
    if d.has_errors || p.has_errors then Except.ok ""
    else do
      let tps_ratio ← pydiv p.tps d.tps
      let latency_ratio ← pydiv d.latency p.latency
      let inv ← pydiv 1 latency_ratio
      Except.ok
        ("Connection Overhead Test (20 clients, new connection per transaction):\n" ++
         "- PgBouncer achieved " ++ fmtFixed 1 tps_ratio ++
         "x the throughput of direct connections\n" ++
         "- PgBouncer reduced latency by " ++ fmtFixed 0 ((1 - inv) * 100) ++ "%\n" ++
         "- This demonstrates the massive overhead of connection establishment\n\n")
  | _, _ => Except.ok ""

/-- Lines 117-124: the extreme-test narrative. -/
def extremeFindings (ed ep : Option SimpleResult) : String :=
  match ed with
  | some d =>
    if d.has_errors then
      "High Concurrency Test (1000 clients):\n" ++
      "- Direct connections FAILED as expected (connection limit exceeded)\n" ++
      (match ep with
       | some p =>
         if p.has_errors then ""
         else
           "- PgBouncer successfully handled all 1000 clients\n" ++
           "- Achieved " ++ fmtFixed 0 p.tps ++ " TPS with 1000 concurrent clients\n"
       | none => "") ++
      "- This demonstrates PgBouncer\x27s ability to handle connection multiplexing\n\n"
    else ""
  | none => ""

/-- Lines 97-124: the key-findings section. -/
def keyFindingsText (od op ed ep : Option SimpleResult) : Except String String :=
  (overheadFindings od op).map fun ovh =>
    "\n\nKEY FINDINGS\n" ++ repChar '-' 20 ++ "\n" ++ ovh ++ extremeFindings ed ep

/-- Lines 126-131. -/
def conclusionText : String :=
  "CONCLUSION:\n" ++ "PgBouncer provides significant benefits:\n" ++
  "1. Eliminates connection establishment overhead\n" ++
  "2. Enables high concurrency beyond database limits\n" ++
  "3. Improves both throughput and latency\n" ++
  "4. Provides reliable connection pooling and queuing\n"

/-- Line 133. -/
def analysisDoneMsg (dir ts : String) : String :=
  "Analysis complete! Summary saved to: " ++ summaryFile dir ts

/-- `main` of `analyze_results.py` as an effect trace.  Parsing is pure, so
the key-findings re-parse of the overhead and extreme logs (lines 101-102
and 114-115) returns the values already bound in the loop; only its repeated
read effects are recorded, via `simpleReadList`.  A run that raises returns
that exception instead of a trace. -/
def simpleMain (fs : FS) (dir ts now : String) : Except String (List Effect) := do
  let od ← parseOpt fs (logFile dir "direct_overhead" ts)
  let op ← parseOpt fs (logFile dir "pgbouncer_overhead" ts)
  let cd ← parseOpt fs (logFile dir "direct_concurrent" ts)
  let cp ← parseOpt fs (logFile dir "pgbouncer_concurrent" ts)
  let ed ← parseOpt fs (logFile dir "direct_extreme" ts)
  let ep ← parseOpt fs (logFile dir "pgbouncer_extreme" ts)
  let kf ← keyFindingsText od op ed ep
  let content := simpleHeader now ++ simpleTestSection "overhead" od op ++
    simpleTestSection "concurrent" cd cp ++ simpleTestSection "extreme" ed ep ++
    kf ++ conclusionText
  pure (readsFor fs (simpleReadList dir ts) ++
    [Effect.writeFile (summaryFile dir ts) content,
     Effect.printOut (analysisDoneMsg dir ts),
     Effect.readFile (summaryFile dir ts),
     Effect.printOut ("\n" ++ content)])

/-! ## The detailed report (`analyze_results_improved.py`, lines 111-241) -/

/-- Lines 184-193 of `analyze_results_improved.py`. -/
def improvedHeader (now : String) : String :=
  "PgBouncer Performance Test - DETAILED ANALYSIS\n" ++ repChar '=' 60 ++ "\n" ++
  "Generated: " ++ now ++ "\n\n" ++
  "This analysis includes comprehensive reliability metrics:\n" ++
  "✅ Success/Error Rates\n" ++ "✅ Connection Rejection Counts\n" ++
  "✅ Timeout Rates\n" ++ "✅ Error Type Classification\n" ++
  "✅ Performance Consistency\n\n"

/-- Line 213: the per-strategy numeric summary line (`:.1f` for both the
throughput and the latency figure). -/
def improvedSummaryLine (conn : String) (r : DetailedResult) : String :=
  conn ++ ": " ++ fmtFixed 1 r.tps ++ " TPS, " ++ fmtFixed 1 r.latency ++ "ms avg\n"

/-- Lines 211-215: one strategy entry of the performance summary. -/
def perfSummaryEntry (conn : String) (r : Option DetailedResult) : String :=
  match r with
  | some r =>
    if r.success_rate ≥ 95 then improvedSummaryLine conn r
    else conn ++ ": FAILED or POOR RELIABILITY\n"
  | none => conn ++ ": FAILED or POOR RELIABILITY\n"

/-- Lines 207-215: one scenario block of the performance summary
(`conn_type.title()` gives `Direct` and `Pgbouncer`). -/
def perfSummarySection (name : String) (d p : Option DetailedResult) : String :=
  "\n" ++ name.toUpper ++ " TEST\n" ++ repChar '-' 20 ++ "\n" ++
  perfSummaryEntry "direct".capitalize d ++ perfSummaryEntry "pgbouncer".capitalize p

/-- Line 149. -/
def criticalLine : String := "  ⚠️  CRITICAL ERRORS DETECTED\n"

/-- Line 151. -/
def excellentLine : String := "  ✅ EXCELLENT RELIABILITY\n"

/-- Line 153. -/
def goodLine : String := "  ✅ GOOD RELIABILITY\n"

/-- Line 155. -/
def poorLine : String := "  ⚠️  POOR RELIABILITY\n"

/-- Lines 147-155: the overall per-strategy assessment line of the
reliability detail block. -/
def reliabilityAssessment (r : DetailedResult) : String :=
  if r.has_critical_errors then criticalLine
  else if r.success_rate ≥ 99 then excellentLine
  else if r.success_rate ≥ 95 then goodLine
  else poorLine

/-- The `error_types` dict in iteration order, paired with the rendered
labels `error_type.replace('_', ' ').title()` (line 140). -/
def errorTypesList (e : ErrorCounts) : List (String × ℕ) :=
  [("Connection Refused", e.connection_refused),
   ("Too Many Clients", e.too_many_clients),
   ("Timeout Errors", e.timeout_errors),
   ("Authentication Failed", e.authentication_failed),
   ("Fatal Errors", e.fatal_errors),
   ("Generic Errors", e.generic_errors)]

/-- Line 136: `any(count > 0 for count in result['error_types'].values())`. -/
def anyErrors (e : ErrorCounts) : Bool :=
  (errorTypesList e).any fun x => decide (0 < x.2)

/-- Lines 138-140: one line per non-zero error category. -/
def errorBreakdown (e : ErrorCounts) : String :=
  (errorTypesList e).foldr
    (fun x acc =>
      (if 0 < x.2 then "    " ++ x.1 ++ ": " ++ natStr x.2 ++ "\n" else "") ++ acc)
    ""

/-- Lines 116-155: the reliability detail block for one strategy. -/
def reliabilityBlock (conn : String) (r : Option DetailedResult) : String :=
  match r with
  | none => conn ++ ": NO DATA\n"
  | some r =>
    "\n" ++ conn ++ " Connection:\n" ++
    "  Success Rate: " ++ fmtFixed 1 r.success_rate ++ "%\n" ++
    "  Error Rate: " ++ fmtFixed 1 r.error_rate ++ "%\n" ++
    "  Transactions: " ++ natStr r.transactions_processed ++ "/" ++
      natStr r.total_transactions_attempted ++ "\n" ++
    (if 0 < r.connection_rejections then
      "  Connection Rejections: " ++ natStr r.connection_rejections ++ "\n"
     else "") ++
    (if 0 < r.timeout_rate then
      "  Timeout Rate: " ++ fmtFixed 1 r.timeout_rate ++ "%\n"
     else "") ++
    (if anyErrors r.error_types then "  Error Breakdown:\n" ++ errorBreakdown r.error_types
     else "") ++
    "  Performance Consistency: " ++ r.performance_consistency ++ "\n" ++
    (if 0 < r.latency_stddev then
      "  Latency Std Dev: " ++ fmtFixed 2 r.latency_stddev ++ "ms\n"
     else "") ++
    reliabilityAssessment r

/-- Lines 111-155: `generate_reliability_report` for one scenario. -/
def generate_reliability_report (name : String) (d p : Option DetailedResult) : String :=
  "\n" ++ name.toUpper ++ " - RELIABILITY METRICS\n" ++ repChar '-' 40 ++ "\n" ++
  reliabilityBlock "direct".capitalize d ++ reliabilityBlock "pgbouncer".capitalize p

/-- Lines 228-239: the comparative-reliability block for one scenario. -/
def comparativeBlock (name : String) (d p : Option DetailedResult) : String :=
  match d, p with
  | some d, some p =>
    "\n" ++ name.capitalize ++ " Test Comparison:\n" ++
    "  Direct Success Rate: " ++ fmtFixed 1 d.success_rate ++ "%\n" ++
    "  PgBouncer Success Rate: " ++ fmtFixed 1 p.success_rate ++ "%\n" ++
    "  Reliability Improvement: " ++ fmtPlus 1 (p.success_rate - d.success_rate) ++
      " percentage points\n" ++
    (if p.connection_rejections < d.connection_rejections then
      "  ✅ PgBouncer eliminated " ++
        natStr (d.connection_rejections - p.connection_rejections) ++
        " connection rejections\n"
     else "")
  | _, _ => ""

/-- The full report text of `analyze_results_improved.py` (lines 184-239),
assembled from the six parse results. -/
def improvedReport (od op cd cp ed ep : Option DetailedResult) (now : String) : String :=
  improvedHeader now ++
  "PERFORMANCE SUMMARY\n" ++ repChar '=' 30 ++ "\n" ++
  perfSummarySection "overhead" od op ++ perfSummarySection "concurrent" cd cp ++
  perfSummarySection "extreme" ed ep ++
  "\n\nRELIABILITY ANALYSIS\n" ++ repChar '=' 30 ++ "\n" ++
  generate_reliability_report "overhead" od op ++
  generate_reliability_report "concurrent" cd cp ++
  generate_reliability_report "extreme" ed ep ++
  "\n\nCOMPARATIVE RELIABILITY\n" ++ repChar '=' 30 ++ "\n" ++
  comparativeBlock "overhead" od op ++ comparativeBlock "concurrent" cd cp ++
  comparativeBlock "extreme" ed ep

/-- Line 241: the only console output of the improved engine. -/
def detailedDoneMsg (dir ts : String) : String :=
  "Detailed analysis complete! Report saved to: " ++ detailFile dir ts

/-- `main` of `analyze_results_improved.py` as an effect trace: each of the
six log files is read (at most) once, the report file is written, and a
single completion message is printed. -/
def improvedMain (fs : FS) (dir ts now : String) : Except String (List Effect) := do
  let od ← parseOptD fs (logFile dir "direct_overhead" ts)
  let op ← parseOptD fs (logFile dir "pgbouncer_overhead" ts)
  let cd ← parseOptD fs (logFile dir "direct_concurrent" ts)
  let cp ← parseOptD fs (logFile dir "pgbouncer_concurrent" ts)
  let ed ← parseOptD fs (logFile dir "direct_extreme" ts)
  let ep ← parseOptD fs (logFile dir "pgbouncer_extreme" ts)
  pure (readsFor fs (sixLogFiles dir ts) ++
    [Effect.writeFile (detailFile dir ts) (improvedReport od op cd cp ed ep now),
     Effect.printOut (detailedDoneMsg dir ts)])

/-! ## Theorems: the reliability evaluator (claims C4, C5, C6, C7, C10) -/

/-- C4: evaluation performs no division by zero: `totalAttempted` is
`clientCount * transactionsPerClient`; when it is `0` the success rate is
exactly `0` (the guarded branch of lines 46-48), and the timeout rate is
`timeoutErrors / max 1 totalAttempted * 100` (line 98), whose denominator is
never zero. -/
theorem c4_evaluate_no_div_by_zero (m : MetricRecord) (e : ErrorCounts) (tb : Bool) :
    (evaluateDetailed m e tb).total_transactions_attempted
        = m.clients * m.transactions_per_client
    ∧ (m.clients * m.transactions_per_client = 0 →
        (evaluateDetailed m e tb).success_rate = 0)
    ∧ (evaluateDetailed m e tb).timeout_rate
        = (e.timeout_errors : ℚ)
          / ((max 1 (m.clients * m.transactions_per_client) : ℕ) : ℚ) * 100
    ∧ ((max 1 (m.clients * m.transactions_per_client) : ℕ) : ℚ) ≠ 0 := by
  refine ⟨rfl, fun h => ?_, rfl, ?_⟩
  · simp [evaluateDetailed, h]
  · have h1 : 1 ≤ max 1 (m.clients * m.transactions_per_client) := le_max_left _ _
    have h2 : max 1 (m.clients * m.transactions_per_client) ≠ 0 := by omega
    exact_mod_cast h2

/-- C4 witness: at a record with no attempted transactions the success rate
evaluates to exactly `0` and the timeout-rate denominator to `1`. -/
theorem c4_evaluate_no_div_by_zero_witness :
    (0 : ℕ) * 0 = 0 ∧ (evaluateDetailed zeroMetricRecord zeroErrorCounts false).success_rate = 0 :=
  ⟨rfl, (c4_evaluate_no_div_by_zero zeroMetricRecord zeroErrorCounts false).2.1 rfl⟩

/-- C5: the consistency rating is `Good` when either latency figure is zero;
otherwise, with `cv = latencyStdDev / latencyMean * 100`, it is `Poor` iff
`cv > 50`, `Fair` iff `25 < cv ≤ 50` and `Good` iff `cv ≤ 25` — both
thresholds exclusive on the upper side, so `cv = 50` is `Fair` and
`cv = 25` is `Good`. -/
theorem c5_consistency_rating (m : MetricRecord) (e : ErrorCounts) (tb : Bool)
    (h1 : 0 ≤ m.latency_stddev) (h2 : 0 ≤ m.latency) :
    ((m.latency_stddev = 0 ∨ m.latency = 0) →
      (evaluateDetailed m e tb).performance_consistency = "Good")
    ∧ (m.latency_stddev ≠ 0 → m.latency ≠ 0 →
        (((evaluateDetailed m e tb).performance_consistency = "Poor"
            ↔ 50 < m.latency_stddev / m.latency * 100)
        ∧ ((evaluateDetailed m e tb).performance_consistency = "Fair"
            ↔ 25 < m.latency_stddev / m.latency * 100
              ∧ m.latency_stddev / m.latency * 100 ≤ 50)
        ∧ ((evaluateDetailed m e tb).performance_consistency = "Good"
            ↔ m.latency_stddev / m.latency * 100 ≤ 25))) := by
  have hpc : (evaluateDetailed m e tb).performance_consistency
      = performanceConsistency m.latency_stddev m.latency := rfl
  constructor
  · intro h
    rw [hpc]
    unfold performanceConsistency
    rcases h with h | h <;> rw [if_neg] <;> rintro ⟨ha, hb⟩ <;>
      [exact absurd h (ne_of_gt ha); exact absurd h (ne_of_gt hb)]
  · intro ha hb
    have ha' : 0 < m.latency_stddev := lt_of_le_of_ne h1 (Ne.symm ha)
    have hb' : 0 < m.latency := lt_of_le_of_ne h2 (Ne.symm hb)
    rw [hpc]
    unfold performanceConsistency
    rw [if_pos ⟨ha', hb'⟩]
    by_cases hcv1 : 50 < m.latency_stddev / m.latency * 100
    · rw [if_pos hcv1]
      refine ⟨⟨fun _ => hcv1, fun _ => rfl⟩,
        ⟨fun h => absurd h (by decide), fun h => absurd hcv1 (not_lt_of_le h.2)⟩,
        ⟨fun h => absurd h (by decide),
         fun hle => absurd hcv1 (not_lt_of_le (hle.trans (by norm_num)))⟩⟩
    · rw [if_neg hcv1]
      by_cases hcv2 : 25 < m.latency_stddev / m.latency * 100
      · rw [if_pos hcv2]
        exact ⟨⟨fun h => absurd h (by decide), fun h => absurd h hcv1⟩,
          ⟨fun _ => ⟨hcv2, le_of_not_lt hcv1⟩, fun _ => rfl⟩,
          ⟨fun h => absurd h (by decide), fun hle => absurd hcv2 (not_lt_of_le hle)⟩⟩
      · rw [if_neg hcv2]
        exact ⟨⟨fun h => absurd h (by decide), fun h => absurd h hcv1⟩,
          ⟨fun h => absurd h (by decide), fun h => absurd h.1 hcv2⟩,
          ⟨fun _ => le_of_not_lt hcv2, fun _ => rfl⟩⟩

/-- C5 witness: at `latencyStdDev = 1`, `latencyMean = 2` the coefficient of
variation is exactly `50`, and the rating evaluates to `Fair`, not `Poor`. -/
theorem c5_consistency_rating_witness :
    (evaluateDetailed ⟨0, 2, 1, 0, 0, 0, 0⟩ zeroErrorCounts false).performance_consistency
      = "Fair" := by
  have h := c5_consistency_rating ⟨0, 2, 1, 0, 0, 0, 0⟩ zeroErrorCounts false
    (by norm_num) (by norm_num)
  exact ((h.2 (by norm_num) (by norm_num)).2.1).mpr
    ⟨(by norm_num : (25 : ℚ) < 1 / 2 * 100), (by norm_num : (1 : ℚ) / 2 * 100 ≤ 50)⟩

/-- C6: `hasCriticalErrors` holds iff `connectionRejections > 0` or
`fatalErrors > 0` or `successRate < 95`; in particular a sub-95 success rate
alone makes it true (lines 64-69). -/
theorem c6_has_critical_errors_iff (m : MetricRecord) (e : ErrorCounts) (tb : Bool) :
    (evaluateDetailed m e tb).has_critical_errors = true
    ↔ (0 < e.connection_refused + e.too_many_clients ∨ 0 < e.fatal_errors
       ∨ (evaluateDetailed m e tb).success_rate < 95) := by
  have hcrit : (evaluateDetailed m e tb).has_critical_errors
      = (decide (0 < e.connection_refused) || decide (0 < e.too_many_clients) ||
         decide (0 < e.fatal_errors) ||
         decide ((evaluateDetailed m e tb).success_rate < 95)) := rfl
  rw [hcrit]
  simp only [Bool.or_eq_true, decide_eq_true_eq]
  constructor
  · rintro (((h | h) | h) | h)
    · exact Or.inl (by omega)
    · exact Or.inl (by omega)
    · exact Or.inr (Or.inl h)
    · exact Or.inr (Or.inr h)
  · rintro (h | h | h)
    · by_cases hr : 0 < e.connection_refused
      · exact Or.inl (Or.inl (Or.inl hr))
      · exact Or.inl (Or.inl (Or.inr (by omega)))
    · exact Or.inl (Or.inr h)
    · exact Or.inr h

/-- C7: the rendered reliability label (lines 147-155) is the critical
warning whenever `hasCriticalErrors` holds, regardless of the success rate;
otherwise it is `EXCELLENT` for a rate of at least 99, `GOOD` for a rate in
`[95, 99)` and `POOR` below 95. -/
theorem c7_reliability_label (r : DetailedResult) :
    (r.has_critical_errors = true → reliabilityAssessment r = criticalLine)
    ∧ (r.has_critical_errors = false →
        ((99 ≤ r.success_rate → reliabilityAssessment r = excellentLine)
        ∧ (95 ≤ r.success_rate → r.success_rate < 99 →
            reliabilityAssessment r = goodLine)
        ∧ (r.success_rate < 95 → reliabilityAssessment r = poorLine))) := by
  unfold reliabilityAssessment
  constructor
  · intro h; rw [if_pos h]
  · intro h
    rw [if_neg (by simp [h])]
    refine ⟨fun h99 => ?_, fun h95 h99 => ?_, fun h95 => ?_⟩
    · rw [if_pos h99]
    · rw [if_neg (not_le_of_lt h99), if_pos h95]
    · rw [if_neg (not_le_of_lt (lt_of_lt_of_le h95 (by norm_num))),
        if_neg (not_le_of_lt h95)]

/-- C7 witness: the all-zero evaluated result has critical errors (its
success rate is 0), and its label is the critical warning. -/
theorem c7_reliability_label_witness :
    (evaluateDetailed zeroMetricRecord zeroErrorCounts false).has_critical_errors = true
    ∧ reliabilityAssessment (evaluateDetailed zeroMetricRecord zeroErrorCounts false)
        = criticalLine := by
  have h : (evaluateDetailed zeroMetricRecord zeroErrorCounts false).has_critical_errors
      = true := by with_unfolding_all rfl
  exact ⟨h, (c7_reliability_label (evaluateDetailed zeroMetricRecord zeroErrorCounts false)).1 h⟩

/-- C10: a sub-95 success rate forces `hasCriticalErrors`, so the rate-based
`POOR RELIABILITY` branch of the label renderer can never fire on an
evaluated result. -/
theorem c10_poor_label_unreachable (m : MetricRecord) (e : ErrorCounts) (tb : Bool) :
    ((evaluateDetailed m e tb).success_rate < 95 →
      (evaluateDetailed m e tb).has_critical_errors = true)
    ∧ reliabilityAssessment (evaluateDetailed m e tb) ≠ poorLine := by
  have h1 : (evaluateDetailed m e tb).success_rate < 95 →
      (evaluateDetailed m e tb).has_critical_errors = true := by
    intro h
    have hcrit : (evaluateDetailed m e tb).has_critical_errors
        = (decide (0 < e.connection_refused) || decide (0 < e.too_many_clients) ||
           decide (0 < e.fatal_errors) ||
           decide ((evaluateDetailed m e tb).success_rate < 95)) := rfl
    rw [hcrit]
    simp [h]
  refine ⟨h1, ?_⟩
  unfold reliabilityAssessment
  by_cases hc : (evaluateDetailed m e tb).has_critical_errors = true
  · rw [if_pos hc]; decide
  · rw [if_neg hc]
    have hge : ¬ (evaluateDetailed m e tb).success_rate < 95 := fun h => hc (h1 h)
    by_cases h99 : 99 ≤ (evaluateDetailed m e tb).success_rate
    · rw [if_pos h99]; decide
    · rw [if_neg h99, if_pos (le_of_not_lt hge)]; decide

/-- C10 witness: the all-zero evaluated result is not labelled `POOR` (it is
labelled critical instead). -/
theorem c10_poor_label_unreachable_witness :
    reliabilityAssessment (evaluateDetailed zeroMetricRecord zeroErrorCounts false)
      ≠ poorLine :=
  (c10_poor_label_unreachable zeroMetricRecord zeroErrorCounts false).2

/-! ## Theorems: the metric extractor (claim C2) -/

/-- A search outcome on which `float(m.group(1)) if m else 0` cannot raise:
either no match, or a capture with at most one dot and at least one digit
(`float()` accepts exactly those strings over the class `[0-9.]`). -/
def floatOkB (o : Option (List Char)) : Bool :=
  match o with
  | none => true
  | some cap => decide (cap.count '.' ≤ 1) && cap.any Char.isDigit

/-- On a harmless search outcome `matchFloat` returns a value, and the value
is the `0` default when there was no match at all. -/
theorem matchFloat_ok (o : Option (List Char)) (h : floatOkB o = true) :
    ∃ q, matchFloat o = Except.ok q ∧ (o = none → q = 0) := by
  cases o with
  | none => exact ⟨0, rfl, fun _ => rfl⟩
  | some cap =>
    simp only [floatOkB, Bool.and_eq_true, decide_eq_true_eq] at h
    have hm : matchFloat (some cap) = pyfloatL cap := rfl
    rw [hm]
    unfold pyfloatL
    rw [if_pos h]
    exact ⟨_, rfl, fun hc => by cases hc⟩

/-- C2 (amended): metric extraction returns normally on every text whose
matched float captures are valid float literals — in particular on every
text in which no float marker matches at all — and each field whose marker
does not occur in the text is the zero default; a text with none of the
seven markers yields the all-zero record.  (The unamended claim, extraction
never raising on any text whatsoever, fails: see the counterexample.) -/
theorem c2_extract_defaults (content : String)
    (h1 : floatOkB (searchTps content) = true)
    (h2 : floatOkB (searchLatency content) = true)
    (h3 : floatOkB (searchLatencyStd content) = true) :
    ∃ m, extractMetrics content = Except.ok m
    ∧ (searchTps content = none → m.tps = 0)
    ∧ (searchLatency content = none → m.latency = 0)
    ∧ (searchLatencyStd content = none → m.latency_stddev = 0)
    ∧ (searchScaling content = none → m.scaling_factor = 0)
    ∧ (searchClients content = none → m.clients = 0)
    ∧ (searchTransPerClient content = none → m.transactions_per_client = 0)
    ∧ (searchTransProcessed content = none → m.transactions_processed = 0)
    ∧ ((searchTps content = none ∧ searchLatency content = none
        ∧ searchLatencyStd content = none ∧ searchScaling content = none
        ∧ searchClients content = none ∧ searchTransPerClient content = none
        ∧ searchTransProcessed content = none) → m = zeroMetricRecord) := by
  obtain ⟨t, ht, ht0⟩ := matchFloat_ok _ h1
  obtain ⟨l, hl, hl0⟩ := matchFloat_ok _ h2
  obtain ⟨s, hs, hs0⟩ := matchFloat_ok _ h3
  refine ⟨⟨t, l, s, matchInt (searchScaling content), matchInt (searchClients content),
    matchInt (searchTransPerClient content), matchInt (searchTransProcessed content)⟩,
    ?_, fun h => ht0 h, fun h => hl0 h, fun h => hs0 h,
    fun h => by rw [h]; rfl, fun h => by rw [h]; rfl,
    fun h => by rw [h]; rfl, fun h => by rw [h]; rfl, ?_⟩
  · simp only [extractMetrics, bind, Except.bind, ht, hl, hs]
    rfl
  · rintro ⟨ha, hb, hc, hd, he, hf, hg⟩
    simp only [ht0 ha, hl0 hb, hs0 hc, hd, he, hf, hg]
    rfl

/-- C2 witness: on the empty text no marker matches, and extraction returns
the all-zero record without raising. -/
theorem c2_extract_defaults_witness :
    floatOkB (searchTps "") = true ∧ extractMetrics "" = Except.ok zeroMetricRecord := by
  obtain ⟨m, hok, -, -, -, -, -, -, -, hall⟩ :=
    c2_extract_defaults "" (by decide) (by decide) (by decide)
  refine ⟨by decide, ?_⟩
  rw [hok, hall ⟨by decide, by decide, by decide, by decide, by decide, by decide,
    by decide⟩]

/-- C2 counterexample: the claim as stated fails — on the text `"tps = ."`
the tps marker matches with capture `"."`, `float('.')` raises
`ValueError`, and extraction does not terminate normally. -/
theorem c2_extractor_raises_on_dot_capture :
    extractMetrics "tps = ." = Except.error "ValueError"
    ∧ parse_pgbench_output "tps = ." = Except.error "ValueError" := by
  constructor <;> with_unfolding_all rfl

/-! ## Theorems: decimal rendering round-trip (claim C9) -/

/-- The digit fold from any accumulator. -/
theorem foldl_digitsToNat (l : List Char) (a : ℕ) :
    l.foldl (fun a c => 10 * a + (c.toNat - 48)) a
      = a * 10 ^ l.length + digitsToNat l := by
  induction l generalizing a with
  | nil => simp [digitsToNat]
  | cons c cs ih =>
    simp only [List.foldl_cons, List.length_cons, digitsToNat]
    rw [ih, ih (10 * 0 + (c.toNat - 48))]
    ring

/-- `digitsToNat` on a cons. -/
theorem digitsToNat_cons (c : Char) (l : List Char) :
    digitsToNat (c :: l) = (c.toNat - 48) * 10 ^ l.length + digitsToNat l := by
  show l.foldl _ (10 * 0 + (c.toNat - 48)) = _
  rw [foldl_digitsToNat]
  ring_nf

/-- `digitChar d` is a decimal digit character for `d < 10`. -/
theorem digitChar_isDigit (d : ℕ) (h : d < 10) : (digitChar d).isDigit = true := by
  interval_cases d <;> decide

/-- `digitChar d` is not the dot for `d < 10`. -/
theorem digitChar_ne_dot (d : ℕ) (h : d < 10) : digitChar d ≠ '.' := by
  interval_cases d <;> decide

/-- The code of `digitChar d` for `d < 10`. -/
theorem digitChar_toNat (d : ℕ) (h : d < 10) : (digitChar d).toNat = 48 + d := by
  interval_cases d <;> decide

/-- The rendered digits of `n` (prepended to `acc`) evaluate back to `n`,
provided the fuel dominates the digit count. -/
theorem natDigs_value : ∀ (fuel n : ℕ) (acc : List Char), n < 10 ^ fuel →
    digitsToNat (natDigs fuel n acc) = n * 10 ^ acc.length + digitsToNat acc := by
  intro fuel
  induction fuel with
  | zero =>
    intro n acc h
    simp only [pow_zero, Nat.lt_one_iff] at h
    simp [natDigs, h]
  | succ fuel ih =>
    intro n acc h
    by_cases h10 : n < 10
    · simp only [natDigs, if_pos h10]
      rw [digitsToNat_cons, digitChar_toNat n h10, Nat.add_sub_cancel_left]
    · simp only [natDigs, if_neg h10]
      have hdiv : n / 10 < 10 ^ fuel := by
        rw [Nat.div_lt_iff_lt_mul (by norm_num)]
        calc n < 10 ^ (fuel + 1) := h
        _ = 10 ^ fuel * 10 := by rw [pow_succ]
      rw [ih (n / 10) _ hdiv]
      rw [digitsToNat_cons, digitChar_toNat (n % 10) (Nat.mod_lt n (by norm_num)),
        Nat.add_sub_cancel_left]
      simp only [List.length_cons, pow_succ]
      have hdm : n * 10 ^ acc.length = (10 * (n / 10) + n % 10) * 10 ^ acc.length := by
        rw [Nat.div_add_mod n 10]
      rw [hdm]
      ring

/-- Every character the renderer emits is a decimal digit. -/
theorem natDigs_digits : ∀ (fuel n : ℕ) (acc : List Char),
    (∀ c ∈ acc, c.isDigit = true) → ∀ c ∈ natDigs fuel n acc, c.isDigit = true := by
  intro fuel
  induction fuel with
  | zero => intro n acc hacc; simpa [natDigs] using hacc
  | succ fuel ih =>
    intro n acc hacc c hc
    by_cases h10 : n < 10
    · simp only [natDigs, if_pos h10] at hc
      rcases List.mem_cons.mp hc with h | h
      · rw [h]; exact digitChar_isDigit n h10
      · exact hacc c h
    · simp only [natDigs, if_neg h10] at hc
      refine ih (n / 10) _ ?_ c hc
      intro d hd
      rcases List.mem_cons.mp hd with h | h
      · rw [h]; exact digitChar_isDigit _ (Nat.mod_lt n (by norm_num))
      · exact hacc d h

/-- The renderer never shortens the accumulator. -/
theorem natDigs_length_ge : ∀ (fuel n : ℕ) (acc : List Char),
    acc.length ≤ (natDigs fuel n acc).length := by
  intro fuel
  induction fuel with
  | zero => intro n acc; simp [natDigs]
  | succ fuel ih =>
    intro n acc
    by_cases h10 : n < 10
    · simp [natDigs, if_pos h10]
    · simp only [natDigs, if_neg h10]
      calc acc.length ≤ (digitChar (n % 10) :: acc).length := by simp
      _ ≤ _ := ih (n / 10) _

/-- A value below `10 ^ k` renders with at most `k` digits. -/
theorem natDigs_length_le : ∀ (fuel k n : ℕ) (acc : List Char), n < 10 ^ k → 1 ≤ k →
    (natDigs fuel n acc).length ≤ k + acc.length := by
  intro fuel
  induction fuel with
  | zero => intro k n acc _ _; simp [natDigs]
  | succ fuel ih =>
    intro k n acc h hk
    by_cases h10 : n < 10
    · simp only [natDigs, if_pos h10, List.length_cons]
      omega
    · simp only [natDigs, if_neg h10]
      have hk2 : 2 ≤ k := by
        by_contra hlt
        have hk1 : k = 1 := by omega
        rw [hk1] at h
        simp at h
        omega
      have hdiv : n / 10 < 10 ^ (k - 1) := by
        rw [Nat.div_lt_iff_lt_mul (by norm_num)]
        calc n < 10 ^ k := h
        _ = 10 ^ (k - 1) * 10 := by
            rw [← pow_succ]
            congr 1
            omega
      have := ih (k - 1) (n / 10) (digitChar (n % 10) :: acc) hdiv (by omega)
      simp only [List.length_cons] at this
      omega

/-- `str(n)` evaluates back to `n`. -/
theorem natToDigitsL_value (n : ℕ) : digitsToNat (natToDigitsL n) = n := by
  have h : n < 10 ^ (n + 1) := by
    calc n < 10 ^ n := Nat.lt_pow_self (by norm_num) n
    _ ≤ 10 ^ (n + 1) := Nat.pow_le_pow_right (by norm_num) (Nat.le_succ n)
  simpa [digitsToNat] using natDigs_value (n + 1) n [] h

/-- `str(n)` is all digits. -/
theorem natToDigitsL_digits (n : ℕ) : ∀ c ∈ natToDigitsL n, c.isDigit = true :=
  natDigs_digits (n + 1) n [] (by simp)

/-- `str(n)` is never empty. -/
theorem natToDigitsL_ne_nil (n : ℕ) : natToDigitsL n ≠ [] := by
  unfold natToDigitsL natDigs
  by_cases h10 : n < 10
  · simp [if_pos h10]
  · simp only [if_neg h10]
    intro h
    have := natDigs_length_ge n (n / 10) [digitChar (n % 10)]
    rw [h] at this
    simp at this

/-- `str(n)` has at most `k` digits when `n < 10 ^ k`. -/
theorem natToDigitsL_length (n k : ℕ) (h : n < 10 ^ k) (hk : 1 ≤ k) :
    (natToDigitsL n).length ≤ k := by
  simpa using natDigs_length_le (n + 1) k n [] h hk

/-- Leading zeros do not change the evaluated digit value. -/
theorem digitsToNat_replicate_zero (k : ℕ) (l : List Char) :
    digitsToNat (List.replicate k '0' ++ l) = digitsToNat l := by
  induction k with
  | zero => simp
  | succ k ih =>
    rw [List.replicate_succ, List.cons_append, digitsToNat_cons]
    simpa using ih

/-- Zero-padding preserves the evaluated digit value. -/
theorem padZeros_value (k : ℕ) (l : List Char) :
    digitsToNat (padZeros k l) = digitsToNat l :=
  digitsToNat_replicate_zero _ l

/-- Zero-padding a short digit string yields exactly width `k`. -/
theorem padZeros_length (k : ℕ) (l : List Char) (h : l.length ≤ k) :
    (padZeros k l).length = k := by
  simp [padZeros]
  omega

/-- Zero-padding keeps the string all digits. -/
theorem padZeros_digits (k : ℕ) (l : List Char) (h : ∀ c ∈ l, c.isDigit = true) :
    ∀ c ∈ padZeros k l, c.isDigit = true := by
  intro c hc
  rcases List.mem_append.mp hc with hm | hm
  · rw [List.eq_of_mem_replicate hm]; decide
  · exact h c hm

/-- A digit character is not the dot. -/
theorem digit_ne_dot {c : Char} (h : c.isDigit = true) : c ≠ '.' := by
  intro he
  rw [he] at h
  exact absurd h (by decide)

/-- `takeWhile (≠ '.')` keeps an all-digit string whole. -/
theorem takeWhile_digits (l : List Char) (h : ∀ c ∈ l, c.isDigit = true) :
    l.takeWhile (fun c => c ≠ '.') = l := by
  induction l with
  | nil => rfl
  | cons c cs ih =>
    rw [List.takeWhile_cons]
    rw [if_pos (by simpa using digit_ne_dot (h c (List.mem_cons_self c cs)))]
    rw [ih fun d hd => h d (List.mem_cons_of_mem c hd)]

/-- `dropWhile (≠ '.')` drops an all-digit string entirely. -/
theorem dropWhile_digits (l : List Char) (h : ∀ c ∈ l, c.isDigit = true) :
    l.dropWhile (fun c => c ≠ '.') = [] := by
  induction l with
  | nil => rfl
  | cons c cs ih =>
    rw [List.dropWhile_cons]
    rw [if_pos (by simpa using digit_ne_dot (h c (List.mem_cons_self c cs)))]
    exact ih fun d hd => h d (List.mem_cons_of_mem c hd)

/-- `takeWhile (≠ '.')` on `digits ++ '.' :: rest` is the integer part. -/
theorem takeWhile_digits_dot (ip rest : List Char) (h : ∀ c ∈ ip, c.isDigit = true) :
    (ip ++ '.' :: rest).takeWhile (fun c => c ≠ '.') = ip := by
  induction ip with
  | nil => simp [List.takeWhile_cons]
  | cons c cs ih =>
    rw [List.cons_append, List.takeWhile_cons]
    rw [if_pos (by simpa using digit_ne_dot (h c (List.mem_cons_self c cs)))]
    rw [ih fun d hd => h d (List.mem_cons_of_mem c hd)]

/-- `dropWhile (≠ '.')` on `digits ++ '.' :: rest` is the dot and the rest. -/
theorem dropWhile_digits_dot (ip rest : List Char) (h : ∀ c ∈ ip, c.isDigit = true) :
    (ip ++ '.' :: rest).dropWhile (fun c => c ≠ '.') = '.' :: rest := by
  induction ip with
  | nil => simp [List.dropWhile_cons]
  | cons c cs ih =>
    rw [List.cons_append, List.dropWhile_cons]
    rw [if_pos (by simpa using digit_ne_dot (h c (List.mem_cons_self c cs)))]
    exact ih fun d hd => h d (List.mem_cons_of_mem c hd)

/-- An all-digit string has no dot occurrences. -/
theorem count_dot_digits (l : List Char) (h : ∀ c ∈ l, c.isDigit = true) :
    l.count '.' = 0 :=
  List.count_eq_zero.mpr fun hm => digit_ne_dot (h '.' hm) rfl

/-- A non-empty all-digit string contains a digit. -/
theorem any_digits (l : List Char) (hne : l ≠ []) (h : ∀ c ∈ l, c.isDigit = true) :
    l.any Char.isDigit = true := by
  cases l with
  | nil => exact absurd rfl hne
  | cons c cs => simp [List.any_cons, h c (List.mem_cons_self c cs)]

/-- The value branch of `pyfloatL` on an accepted capture. -/
theorem pyfloatL_ok (cap : List Char) (h : cap.count '.' ≤ 1 ∧ cap.any Char.isDigit) :
    pyfloatL cap = Except.ok ((digitsToNat (cap.takeWhile (fun c => c ≠ '.')) : ℚ)
      + (digitsToNat ((cap.dropWhile (fun c => c ≠ '.')).drop 1) : ℚ)
        / 10 ^ ((cap.dropWhile (fun c => c ≠ '.')).drop 1).length) := by
  rw [pyfloatL, if_pos h]

/-- Re-parsing a fixed-point rendering with `float()` recovers exactly the
rounded value `roundQ (q * 10 ^ prec) / 10 ^ prec`. -/
theorem pyfloat_fmtFixedL (prec : ℕ) (q : ℚ) (hq : 0 ≤ q) :
    pyfloatL (fmtFixedL prec q)
      = Except.ok ((roundQ (q * 10 ^ prec) : ℚ) / 10 ^ prec) := by
  have hx : (0 : ℚ) ≤ q * 10 ^ prec := by positivity
  have hm0 : 0 ≤ roundQ (q * 10 ^ prec) := by
    rw [roundQ]
    exact Int.le_floor.mpr (by push_cast; linarith)
  have haq : ((roundQ (q * 10 ^ prec)).natAbs : ℚ) = ((roundQ (q * 10 ^ prec) : ℤ) : ℚ) := by
    rw [Int.cast_natAbs]
    exact congrArg (fun z : ℤ => (z : ℚ)) (abs_of_nonneg hm0)
  simp only [fmtFixedL]
  rw [if_neg (not_lt_of_le hm0)]
  by_cases hp : prec = 0
  · subst hp
    rw [if_pos rfl]
    have hdig := natToDigitsL_digits (roundQ (q * 10 ^ 0)).natAbs
    have hcond : (natToDigitsL (roundQ (q * 10 ^ 0)).natAbs).count '.' ≤ 1
        ∧ (natToDigitsL (roundQ (q * 10 ^ 0)).natAbs).any Char.isDigit := by
      constructor
      · rw [count_dot_digits _ hdig]; norm_num
      · exact any_digits _ (natToDigitsL_ne_nil _) hdig
    rw [pyfloatL_ok _ hcond]
    rw [takeWhile_digits _ hdig, dropWhile_digits _ hdig]
    simp only [List.drop_nil, List.length_nil, pow_zero]
    rw [natToDigitsL_value]
    rw [show digitsToNat [] = 0 from rfl]
    rw [Nat.cast_zero, zero_div, add_zero, div_one]
    refine congrArg Except.ok ?_
    simpa using haq
  · rw [if_neg hp]
    have hprec1 : 1 ≤ prec := Nat.one_le_iff_ne_zero.mpr hp
    have hipd := natToDigitsL_digits ((roundQ (q * 10 ^ prec)).natAbs / 10 ^ prec)
    have hfpd : ∀ c ∈ padZeros prec
        (natToDigitsL ((roundQ (q * 10 ^ prec)).natAbs % 10 ^ prec)), c.isDigit = true :=
      padZeros_digits _ _ (natToDigitsL_digits _)
    have hcond : ((natToDigitsL ((roundQ (q * 10 ^ prec)).natAbs / 10 ^ prec) ++
          '.' :: padZeros prec
            (natToDigitsL ((roundQ (q * 10 ^ prec)).natAbs % 10 ^ prec))).count '.' ≤ 1)
        ∧ (natToDigitsL ((roundQ (q * 10 ^ prec)).natAbs / 10 ^ prec) ++
          '.' :: padZeros prec
            (natToDigitsL ((roundQ (q * 10 ^ prec)).natAbs % 10 ^ prec))).any
            Char.isDigit := by
      constructor
      · rw [List.count_append, count_dot_digits _ hipd, List.count_cons]
        rw [count_dot_digits _ hfpd]
        norm_num
      · rw [List.any_append]
        rw [any_digits _ (natToDigitsL_ne_nil _) hipd]
        simp
    rw [pyfloatL_ok _ hcond]
    rw [takeWhile_digits_dot _ _ hipd, dropWhile_digits_dot _ _ hipd]
    rw [show List.drop 1 ('.' :: padZeros prec
      (natToDigitsL ((roundQ (q * 10 ^ prec)).natAbs % 10 ^ prec)))
      = padZeros prec (natToDigitsL ((roundQ (q * 10 ^ prec)).natAbs % 10 ^ prec)) from rfl]
    rw [natToDigitsL_value, padZeros_value, natToDigitsL_value]
    rw [padZeros_length _ _ (natToDigitsL_length _ _
      (Nat.mod_lt _ (Nat.pos_pow_of_pos prec (by norm_num))) hprec1)]
    refine congrArg Except.ok ?_
    have h10 : ((10 : ℚ) ^ prec) ≠ 0 := by positivity
    have key : (10 : ℚ) ^ prec * (((roundQ (q * 10 ^ prec)).natAbs / 10 ^ prec : ℕ) : ℚ)
        + (((roundQ (q * 10 ^ prec)).natAbs % 10 ^ prec : ℕ) : ℚ)
        = (((roundQ (q * 10 ^ prec)).natAbs : ℕ) : ℚ) := by
      exact_mod_cast congrArg (Nat.cast : ℕ → ℚ)
        (Nat.div_add_mod (roundQ (q * 10 ^ prec)).natAbs (10 ^ prec))
    rw [eq_div_iff h10]
    rw [add_mul, div_mul_cancel₀ _ h10]
    linarith [key, haq]

/-- The value recovered from a `prec`-digit rendering differs from the
rendered value by at most half a unit in the last rendered place. -/
theorem roundQ_abs_le (prec : ℕ) (q : ℚ) :
    |((roundQ (q * 10 ^ prec) : ℤ) : ℚ) / 10 ^ prec - q| ≤ 1 / (2 * 10 ^ prec) := by
  have h10 : (0 : ℚ) < 10 ^ prec := by positivity
  have hfl1 : ((roundQ (q * 10 ^ prec) : ℤ) : ℚ) ≤ q * 10 ^ prec + 1 / 2 := by
    rw [roundQ]
    exact Int.floor_le _
  have hfl2 : q * 10 ^ prec - 1 / 2 ≤ ((roundQ (q * 10 ^ prec) : ℤ) : ℚ) := by
    rw [roundQ]
    have := Int.sub_one_lt_floor (q * 10 ^ prec + 1 / 2)
    linarith
  have he : ((roundQ (q * 10 ^ prec) : ℤ) : ℚ) / 10 ^ prec - q
      = (((roundQ (q * 10 ^ prec) : ℤ) : ℚ) - q * 10 ^ prec) / 10 ^ prec := by
    field_simp
    ring
  rw [he, abs_div, abs_of_pos h10, show (1 : ℚ) / (2 * 10 ^ prec) = (1 / 2) / 10 ^ prec by
    rw [div_div]]
  rw [div_le_div_iff_of_pos_right h10]
  rw [abs_le]
  constructor <;> linarith

/-- C9 (amended): the simple engine's numeric summary lines render tps and
latency with `:.2f` and the improved engine's with `:.1f` (not two decimal
places); for either precision, re-parsing the rendered figure recovers the
fed value rounded at that precision, hence differing from it by at most half
a unit in the last rendered decimal place. -/
theorem c9_roundtrip (prec : ℕ) (q : ℚ) (hq : 0 ≤ q) :
    pyfloatL (fmtFixedL prec q)
      = Except.ok (((roundQ (q * 10 ^ prec) : ℤ) : ℚ) / 10 ^ prec)
    ∧ |((roundQ (q * 10 ^ prec) : ℤ) : ℚ) / 10 ^ prec - q| ≤ 1 / (2 * 10 ^ prec)
    ∧ (∀ (lat : ℚ) (b : Bool), simpleDirectBlock ⟨q, lat, b⟩
        = "Direct Connection:\n" ++ "  TPS: " ++ String.mk (fmtFixedL 2 q) ++ "\n"
          ++ "  Latency: " ++ String.mk (fmtFixedL 2 lat) ++ " ms\n")
    ∧ (∀ (conn : String) (r : DetailedResult), r.tps = q →
        improvedSummaryLine conn r
          = conn ++ ": " ++ String.mk (fmtFixedL 1 q) ++ " TPS, "
            ++ String.mk (fmtFixedL 1 r.latency) ++ "ms avg\n") :=
  ⟨pyfloat_fmtFixedL prec q hq, roundQ_abs_le prec q,
   fun _ _ => rfl, fun conn r h => by rw [improvedSummaryLine, h]; rfl⟩

/-- C9 witness: at precision 2 and value `3/2` the rendering re-parses to
exactly `3/2`. -/
theorem c9_roundtrip_witness :
    (0 : ℚ) ≤ 3 / 2
    ∧ pyfloatL (fmtFixedL 2 (3 / 2))
        = Except.ok (((roundQ ((3 / 2) * 10 ^ 2) : ℤ) : ℚ) / 10 ^ 2) :=
  ⟨by norm_num, (c9_roundtrip 2 (3 / 2) (by norm_num)).1⟩

/-- C9 counterexample: the claim as stated fails for the improved engine's
summary line, which renders tps and latency with one decimal place, not two:
feeding `tps = latency = 1.06` renders `1.1`, and the re-parsed value `1.1`
differs from `1.06` by more than half a unit in the second decimal place. -/
theorem c9_improved_one_decimal :
    perfSummaryEntry "Direct"
        (some (evaluateDetailed ⟨106 / 100, 106 / 100, 0, 1, 1, 1, 1⟩ zeroErrorCounts false))
      = "Direct: 1.1 TPS, 1.1ms avg\n"
    ∧ improvedSummaryLine "Direct"
        (evaluateDetailed ⟨106 / 100, 106 / 100, 0, 1, 1, 1, 1⟩ zeroErrorCounts false)
      = "Direct: 1.1 TPS, 1.1ms avg\n"
    ∧ pyfloatL "1.1".data = Except.ok (11 / 10)
    ∧ ¬ |(11 / 10 : ℚ) - 106 / 100| ≤ 1 / (2 * 10 ^ 2) := by
  refine ⟨by with_unfolding_all rfl, by with_unfolding_all rfl,
    by with_unfolding_all rfl, ?_⟩
  rw [show (11 / 10 : ℚ) - 106 / 100 = 4 / 100 by norm_num,
    abs_of_pos (by norm_num : (0 : ℚ) < 4 / 100)]
  norm_num

/-! ## Trace-shape lemmas for the two engines (claims C3 and C8) -/

/-- A completed improved-engine run reads the existing log files once each,
writes the report file, and prints the completion message. -/
theorem improvedMain_ok (fs : FS) (dir ts now : String) (tr : List Effect)
    (h : improvedMain fs dir ts now = Except.ok tr) :
    ∃ od op cd cp ed ep, tr = readsFor fs (sixLogFiles dir ts) ++
      [Effect.writeFile (detailFile dir ts) (improvedReport od op cd cp ed ep now),
       Effect.printOut (detailedDoneMsg dir ts)] := by
  simp only [improvedMain, bind, Except.bind] at h
  rcases h1 : parseOptD fs (logFile dir "direct_overhead" ts) with e | od
  · rw [h1] at h; exact Except.noConfusion h
  rw [h1] at h
  rcases h2 : parseOptD fs (logFile dir "pgbouncer_overhead" ts) with e | op
  · rw [h2] at h; exact Except.noConfusion h
  rw [h2] at h
  rcases h3 : parseOptD fs (logFile dir "direct_concurrent" ts) with e | cd
  · rw [h3] at h; exact Except.noConfusion h
  rw [h3] at h
  rcases h4 : parseOptD fs (logFile dir "pgbouncer_concurrent" ts) with e | cp
  · rw [h4] at h; exact Except.noConfusion h
  rw [h4] at h
  rcases h5 : parseOptD fs (logFile dir "direct_extreme" ts) with e | ed
  · rw [h5] at h; exact Except.noConfusion h
  rw [h5] at h
  rcases h6 : parseOptD fs (logFile dir "pgbouncer_extreme" ts) with e | ep
  · rw [h6] at h; exact Except.noConfusion h
  rw [h6] at h
  injection h with h
  exact ⟨od, op, cd, cp, ed, ep, h.symm⟩

/-- A completed simple-engine run reads the existing log files (the four
overhead and extreme logs twice), writes the summary file with some content,
prints the completion message, re-reads the summary file and prints its
content again. -/
theorem simpleMain_ok (fs : FS) (dir ts now : String) (tr : List Effect)
    (h : simpleMain fs dir ts now = Except.ok tr) :
    ∃ content, tr = readsFor fs (simpleReadList dir ts) ++
      [Effect.writeFile (summaryFile dir ts) content,
       Effect.printOut (analysisDoneMsg dir ts),
       Effect.readFile (summaryFile dir ts),
       Effect.printOut ("\n" ++ content)] := by
  simp only [simpleMain, bind, Except.bind] at h
  rcases h1 : parseOpt fs (logFile dir "direct_overhead" ts) with e | od
  · simp only [h1] at h; exact Except.noConfusion h
  simp only [h1] at h
  rcases h2 : parseOpt fs (logFile dir "pgbouncer_overhead" ts) with e | op
  · simp only [h2] at h; exact Except.noConfusion h
  simp only [h2] at h
  rcases h3 : parseOpt fs (logFile dir "direct_concurrent" ts) with e | cd
  · simp only [h3] at h; exact Except.noConfusion h
  simp only [h3] at h
  rcases h4 : parseOpt fs (logFile dir "pgbouncer_concurrent" ts) with e | cp
  · simp only [h4] at h; exact Except.noConfusion h
  simp only [h4] at h
  rcases h5 : parseOpt fs (logFile dir "direct_extreme" ts) with e | ed
  · simp only [h5] at h; exact Except.noConfusion h
  simp only [h5] at h
  rcases h6 : parseOpt fs (logFile dir "pgbouncer_extreme" ts) with e | ep
  · simp only [h6] at h; exact Except.noConfusion h
  simp only [h6] at h
  rcases h7 : keyFindingsText od op ed ep with e | kf
  · simp only [h7] at h; exact Except.noConfusion h
  simp only [h7] at h
  injection h with h
  exact ⟨_, h.symm⟩

/-- `logFile` is injective in the scenario_strategy stem. -/
theorem logFile_inj_iff (dir ts m1 m2 : String) :
    logFile dir m1 ts = logFile dir m2 ts ↔ m1 = m2 := by
  constructor
  · intro h
    have hd := congrArg String.data h
    simp only [logFile, String.data_append, List.append_assoc] at hd
    have h2 := List.append_cancel_left (List.append_cancel_left hd)
    exact String.ext (List.append_cancel_right h2)
  · intro h; rw [h]

/-- A log-file path whose stem does not start with `s` is never the
summary-file path. -/
theorem logFile_ne_summaryFile (dir ts m : String) (c : Char) (cs : List Char)
    (hm : m.data = c :: cs) (hc : c ≠ 's') :
    logFile dir m ts ≠ summaryFile dir ts := by
  intro h
  have hd := congrArg String.data h
  simp only [logFile, summaryFile, String.data_append, List.append_assoc] at hd
  have h1 := List.append_cancel_left hd
  rw [hm] at h1
  simp only [List.cons_append, List.nil_append, List.cons.injEq] at h1
  exact hc h1.2.1

/-- The six expected log-file paths are pairwise distinct. -/
theorem sixLogFiles_nodup (dir ts : String) : (sixLogFiles dir ts).Nodup := by
  simp only [sixLogFiles, sixLogMids, List.map, List.nodup_cons, List.mem_cons,
    List.not_mem_nil, or_false, List.nodup_nil, and_true, logFile_inj_iff]
  decide

/-- The four key-findings re-read paths are pairwise distinct. -/
theorem keyFindingsReads_nodup (dir ts : String) :
    ([logFile dir "direct_overhead" ts, logFile dir "pgbouncer_overhead" ts,
      logFile dir "direct_extreme" ts, logFile dir "pgbouncer_extreme" ts]).Nodup := by
  simp only [List.nodup_cons, List.mem_cons, List.not_mem_nil, or_false,
    List.nodup_nil, and_true, logFile_inj_iff]
  decide

/-- `readNames` distributes over trace concatenation. -/
theorem readNames_append (a b : List Effect) :
    readNames (a ++ b) = readNames a ++ readNames b := by
  induction a with
  | nil => rfl
  | cons e es ih => cases e <;> simp [readNames, ih]

/-- The names read by a block of read events. -/
theorem readNames_map_readFile (l : List String) :
    readNames (l.map Effect.readFile) = l := by
  induction l with
  | nil => rfl
  | cons n ns ih => simp [readNames, ih]

/-- Filtering never increases an occurrence count. -/
theorem count_filter_le (file : String) (p : String → Bool) (l : List String) :
    (l.filter p).count file ≤ l.count file :=
  List.Sublist.count_le (List.filter_sublist l) file

/-- Every path occurs at most twice in the simple engine's read list. -/
theorem count_simpleReadList_le (dir ts file : String) :
    (simpleReadList dir ts).count file ≤ 2 := by
  unfold simpleReadList
  rw [List.count_append]
  have h1 := List.nodup_iff_count_le_one.mp (sixLogFiles_nodup dir ts) file
  have h2 := List.nodup_iff_count_le_one.mp (keyFindingsReads_nodup dir ts) file
  omega

/-- The summary file is not among the log files the simple engine reads. -/
theorem summary_count_zero (dir ts : String) :
    (simpleReadList dir ts).count (summaryFile dir ts) = 0 := by
  rw [List.count_eq_zero]
  intro hmem
  simp only [simpleReadList, sixLogFiles, sixLogMids, List.map, List.append_nil,
    List.mem_append, List.mem_cons, List.not_mem_nil, or_false] at hmem
  rcases hmem with ((h | h | h | h | h | h) | (h | h | h | h)) <;>
  · first
    | exact logFile_ne_summaryFile dir ts "direct_overhead" 'd' _ rfl (by decide) h.symm
    | exact logFile_ne_summaryFile dir ts "pgbouncer_overhead" 'p' _ rfl (by decide) h.symm
    | exact logFile_ne_summaryFile dir ts "direct_concurrent" 'd' _ rfl (by decide) h.symm
    | exact logFile_ne_summaryFile dir ts "pgbouncer_concurrent" 'p' _ rfl (by decide) h.symm
    | exact logFile_ne_summaryFile dir ts "direct_extreme" 'd' _ rfl (by decide) h.symm
    | exact logFile_ne_summaryFile dir ts "pgbouncer_extreme" 'p' _ rfl (by decide) h.symm

/-! ## Theorems: file reads per run (claim C3) -/

/-- C3 (amended): in a completed run of the improved engine every file is
read at most once; in a completed run of the simple engine every file is
read at most twice — the key-findings pass (lines 101-102 and 114-115 of
`analyze_results.py`) re-reads the overhead and extreme logs a second time,
so reads are not unique there.  (The unamended claim, at most one read per
log file in every run, fails on the simple engine: see the
counterexample.) -/
theorem c3_read_counts :
    (∀ (fs : FS) (dir ts now : String) (tr : List Effect) (file : String),
      simpleMain fs dir ts now = Except.ok tr → readCount file tr ≤ 2)
    ∧ (∀ (fs : FS) (dir ts now : String) (tr : List Effect) (file : String),
      improvedMain fs dir ts now = Except.ok tr → readCount file tr ≤ 1) := by
  constructor
  · intro fs dir ts now tr file h
    obtain ⟨content, rfl⟩ := simpleMain_ok fs dir ts now tr h
    unfold readCount
    rw [readNames_append, List.count_append]
    have hr : readNames (readsFor fs (simpleReadList dir ts))
        = (simpleReadList dir ts).filter fun n => (fs n).isSome :=
      readNames_map_readFile _
    have htail : readNames [Effect.writeFile (summaryFile dir ts) content,
        Effect.printOut (analysisDoneMsg dir ts), Effect.readFile (summaryFile dir ts),
        Effect.printOut ("\n" ++ content)] = [summaryFile dir ts] := rfl
    rw [hr, htail]
    by_cases hf : file = summaryFile dir ts
    · subst hf
      have h0 := summary_count_zero dir ts
      have h1 := count_filter_le (summaryFile dir ts)
        (fun n => (fs n).isSome) (simpleReadList dir ts)
      have h2 : ([summaryFile dir ts].count (summaryFile dir ts)) ≤ 1 := by
        simp [List.count_cons]
      omega
    · have h1 := count_filter_le file (fun n => (fs n).isSome) (simpleReadList dir ts)
      have h2 := count_simpleReadList_le dir ts file
      have h3 : ([summaryFile dir ts].count file) = 0 := by
        simp only [List.count_cons, List.count_nil]
        simp only [beq_iff_eq]
        rw [if_neg (fun hh => hf hh.symm)]
      omega
  · intro fs dir ts now tr file h
    obtain ⟨od, op, cd, cp, ed, ep, rfl⟩ := improvedMain_ok fs dir ts now tr h
    unfold readCount
    rw [readNames_append, List.count_append]
    have hr : readNames (readsFor fs (sixLogFiles dir ts))
        = (sixLogFiles dir ts).filter fun n => (fs n).isSome :=
      readNames_map_readFile _
    have htail : readNames [Effect.writeFile (detailFile dir ts)
        (improvedReport od op cd cp ed ep now),
        Effect.printOut (detailedDoneMsg dir ts)] = [] := rfl
    rw [hr, htail]
    have h1 := count_filter_le file (fun n => (fs n).isSome) (sixLogFiles dir ts)
    have h2 := List.nodup_iff_count_le_one.mp (sixLogFiles_nodup dir ts) file
    simp only [List.count_nil]
    omega

/-! ## Theorems: report write and console echo (claim C8), division guard
(claim C1) -/

/-- A pattern is a prefix of itself followed by anything. -/
theorem startsWith_self_append (a t : List Char) : startsWith a (a ++ t) = true := by
  induction a with
  | nil => rfl
  | cons c cs ih => simp [startsWith, ih]

/-- A list occurs in itself followed by anything. -/
theorem containsSub_here (a t : List Char) : containsSub a (a ++ t) = true := by
  cases a with
  | nil => cases t with
    | nil => rfl
    | cons c cs =>
      simp only [List.nil_append, containsSub, Bool.or_eq_true]
      exact Or.inl rfl
  | cons c cs =>
    simp only [List.cons_append, containsSub, Bool.or_eq_true]
    exact Or.inl (startsWith_self_append (c :: cs) t)

/-- Occurrence is preserved by extending the text on the left by one. -/
theorem containsSub_cons_of (p : List Char) (c : Char) (cs : List Char)
    (h : containsSub p cs = true) : containsSub p (c :: cs) = true := by
  simp [containsSub, h]

/-- Occurrence is preserved by extending the text on the left. -/
theorem containsSub_append_left (p s t : List Char) (h : containsSub p t = true) :
    containsSub p (s ++ t) = true := by
  induction s with
  | nil => simpa
  | cons c cs ih =>
    rw [List.cons_append]
    exact containsSub_cons_of _ _ _ ih

/-- Console output distributes over trace concatenation. -/
theorem stdoutOf_append (a b : List Effect) :
    stdoutOf (a ++ b) = stdoutOf a ++ stdoutOf b := by
  induction a with
  | nil => simp [stdoutOf]
  | cons e es ih => cases e <;> simp [stdoutOf, ih, String.append_assoc]

/-- Read events print nothing. -/
theorem stdoutOf_map_readFile (l : List String) :
    stdoutOf (l.map Effect.readFile) = "" := by
  induction l with
  | nil => rfl
  | cons n ns ih => simpa [stdoutOf] using ih

/-- Read events neither write nor print, so the echo check skips them. -/
theorem reportEchoedB_reads (l : List String) (rest : List Effect) :
    reportEchoedB (l.map Effect.readFile ++ rest) = reportEchoedB rest := by
  induction l with
  | nil => rfl
  | cons n ns ih => simpa [reportEchoedB] using ih

/-- C8 (amended): a completed run of the simple engine echoes every written
report content on the standard output produced after the write (the file is
re-read and printed after it is closed); a completed run of the improved
engine prints only the one-line completion message — the report content is
not echoed.  (The unamended claim, both engines echo the report, fails on
the improved engine: see the counterexample.) -/
theorem c8_report_echo :
    (∀ (fs : FS) (dir ts now : String) (tr : List Effect),
      simpleMain fs dir ts now = Except.ok tr → reportEchoedB tr = true)
    ∧ (∀ (fs : FS) (dir ts now : String) (tr : List Effect),
      improvedMain fs dir ts now = Except.ok tr →
        stdoutOf tr = detailedDoneMsg dir ts ++ "\n") := by
  constructor
  · intro fs dir ts now tr h
    obtain ⟨content, rfl⟩ := simpleMain_ok fs dir ts now tr h
    rw [show readsFor fs (simpleReadList dir ts)
      = ((simpleReadList dir ts).filter fun n => (fs n).isSome).map Effect.readFile
      from rfl]
    rw [reportEchoedB_reads]
    simp only [reportEchoedB, stdoutOf, Bool.and_true, Bool.and_eq_true]
    simp only [String.data_append, List.append_assoc, List.cons_append,
      List.nil_append, List.append_nil]
    apply containsSub_append_left
    apply containsSub_cons_of
    apply containsSub_cons_of
    exact containsSub_here _ _
  · intro fs dir ts now tr h
    obtain ⟨od, op, cd, cp, ed, ep, rfl⟩ := improvedMain_ok fs dir ts now tr h
    rw [show readsFor fs (sixLogFiles dir ts)
      = ((sixLogFiles dir ts).filter fun n => (fs n).isSome).map Effect.readFile
      from rfl]
    rw [stdoutOf_append, stdoutOf_map_readFile]
    simp [stdoutOf]

/-- The file-system snapshot with no log files at all. -/
def emptyFS : FS := fun _ => none

/-- The trace of the simple engine on the empty snapshot. -/
def c8Trace : List Effect :=
  match simpleMain emptyFS "r" "t" "T" with
  | Except.ok tr => tr
  | Except.error _ => []

/-- The trace of the improved engine on the empty snapshot. -/
def c8ImpTrace : List Effect :=
  match improvedMain emptyFS "r" "t" "T" with
  | Except.ok tr => tr
  | Except.error _ => []

/-- C8 witness: on the empty snapshot the simple engine completes and its
trace passes the echo check. -/
theorem c8_report_echo_witness :
    simpleMain emptyFS "r" "t" "T" = Except.ok c8Trace
    ∧ reportEchoedB c8Trace = true :=
  ⟨by with_unfolding_all rfl,
   c8_report_echo.1 emptyFS "r" "t" "T" c8Trace (by with_unfolding_all rfl)⟩

/-- C8 counterexample: the claim as stated fails on the improved engine — on
the empty snapshot it completes, writes the report file, but its report
content appears nowhere on standard output (only the one-line completion
message is printed), so the echo check is false. -/
theorem c8_improved_engine_no_echo :
    improvedMain emptyFS "r" "t" "T" = Except.ok c8ImpTrace
    ∧ reportEchoedB c8ImpTrace = false := by
  constructor <;> with_unfolding_all rfl

/-- The snapshot of claim C1's failing input: the direct overhead log exists
but carries no `tps = ` marker and no error keyword (its throughput parses
as the 0 default), while the pooled overhead log parses fine. -/
def fsC1 : FS := fun s =>
  if s = "r/direct_overhead_t.log" then some "hello"
  else if s = "r/pgbouncer_overhead_t.log" then some "tps = 5\nlatency average = 1 ms"
  else none

/-- C1: at the failing input the direct overhead result parses without error
keywords and with zero throughput, and the simple engine's key-findings
section (line 105 of `analyze_results.py`) divides by that zero throughput
without any guard, so the run aborts with `ZeroDivisionError` instead of
omitting the figure.  The per-section improvement figures (lines 86-93) are
guarded; the key-findings ratios (lines 104-111) are not. -/
theorem c1_overhead_ratio_div_by_zero :
    parseOpt fsC1 "r/direct_overhead_t.log" = Except.ok (some ⟨0, 0, false⟩)
    ∧ parseOpt fsC1 "r/pgbouncer_overhead_t.log" = Except.ok (some ⟨5, 1, false⟩)
    ∧ simpleMain fsC1 "r" "t" "T" = Except.error "ZeroDivisionError" := by
  refine ⟨?_, ?_, ?_⟩ <;> with_unfolding_all rfl

/-- The snapshot of claim C3's counterexample: all six logs exist and the
overhead pair parses with non-zero figures, so the simple engine completes. -/
def fsC3 : FS := fun s =>
  if s = "r/direct_overhead_t.log" then some "tps = 2\nlatency average = 4 ms"
  else if s = "r/pgbouncer_overhead_t.log" then some "tps = 8\nlatency average = 1 ms"
  else some "x"

/-- The trace of the simple engine on the C3 snapshot. -/
def c3Trace : List Effect :=
  match simpleMain fsC3 "r" "t" "T" with
  | Except.ok tr => tr
  | Except.error _ => []

/-- C3 counterexample: the claim as stated fails — in this completed run of
the simple engine the direct overhead log is read twice (once by the
results loop, once by the key-findings pass), not at most once. -/
theorem c3_overhead_log_read_twice :
    simpleMain fsC3 "r" "t" "T" = Except.ok c3Trace
    ∧ readCount "r/direct_overhead_t.log" c3Trace = 2
    ∧ ¬ readCount "r/direct_overhead_t.log" c3Trace ≤ 1 := by
  have h2 : readCount "r/direct_overhead_t.log" c3Trace = 2 := by
    with_unfolding_all rfl
  exact ⟨by with_unfolding_all rfl, h2, by rw [h2]; omega⟩

/-- C3 witness: the amended bound holds on the concrete completed run. -/
theorem c3_read_counts_witness :
    simpleMain fsC3 "r" "t" "T" = Except.ok c3Trace
    ∧ readCount "r/pgbouncer_extreme_t.log" c3Trace ≤ 2 :=
  ⟨by with_unfolding_all rfl,
   c3_read_counts.1 fsC3 "r" "t" "T" c3Trace "r/pgbouncer_extreme_t.log"
     (by with_unfolding_all rfl)⟩

/-- C6 witness: a single fatal-error count alone makes the flag true at a
concrete evaluated result. -/
theorem c6_has_critical_errors_iff_witness :
    (evaluateDetailed zeroMetricRecord ⟨0, 0, 0, 0, 1, 0⟩ false).has_critical_errors
      = true :=
  (c6_has_critical_errors_iff zeroMetricRecord ⟨0, 0, 0, 0, 1, 0⟩ false).mpr
    (Or.inr (Or.inl (by norm_num)))
